import Mathlib

/-!
Verification of the ledger and tier-reconciliation engine of the
citadelmarketspro backend.

The definitions below are shallow embeddings of the Python source:

* `deposit_detail`, `edit_deposit`, `withdrawal_detail`, `edit_withdrawal`
  embed the balance-mutating POST branches of the admin views in
  `src/dashboard/views.py` (deposit approval, deposit edit, withdrawal
  approval/rejection, withdrawal edit).
* `apply_copy_trade_to_user` / `add_copy_trade` embed the per-copier
  fan-out of `add_copy_trade` (views.py lines 962–1009) and
  `add_user_trade` embeds the direct-trade path (views.py lines 1425–1434).
* `unlink_copier` and `handle_cancel_request` embed the copier-counter
  maintenance (views.py lines 1573–1580 and 1603–1641).
* `determine_tier`, `get_next_tier_info`, `sync_one_user`, `handle` embed
  `app/management/commands/sync_loyalty_tiers.py`.  The chunked iteration
  of `Command.handle` is modelled as a single ordered pass: the chunks
  partition the id-ordered user list and each user is processed exactly
  once, so the net effect is the same sequential fold.

Monetary amounts (Django `Decimal` fields) are modelled as rationals `ℚ`;
the integer copier counter as `ℤ`.  Methods living in `app/models.py`
(not among the given sources) are modelled from the spec and carry a
`Modelled from the spec:` doc comment.
-/

namespace Citadel

/-! ## Data model -/

/-- Transaction status choices (dashboard/forms.py: the edit forms offer
`pending`, `completed`, `failed`, `cancelled`; the approve forms only
`completed` and `failed`). -/
inductive TxStatus where
  | pending
  | completed
  | failed
  | cancelled
deriving DecidableEq

/-- `Transaction.transaction_type` choices used by the engine. -/
inductive TxKind where
  | deposit
  | withdrawal
deriving DecidableEq

/-- A `Transaction` row: the fields the ledger logic reads and writes. -/
structure Tx where
  transaction_type : TxKind
  amount : ℚ
  status : TxStatus
deriving DecidableEq

/-- A `CustomUser` row restricted to the monetary and loyalty fields the
engine mutates. -/
structure Account where
  balance : ℚ
  profit : ℚ
  current_loyalty_status : String
  next_loyalty_status : String
  next_amount_to_upgrade : ℚ
deriving DecidableEq

/-! ## Tier resolution (app/management/commands/sync_loyalty_tiers.py)

`TIER_ORDER` and `TIER_CONFIG` come from `CustomUser` in `app/models.py`,
which is not among the given sources; they are passed here as parameters
`order : List String` (the ordered tier keys) and `minDep : String → ℚ`
(the `min_deposit` entry of each tier's config).  Modelling the config
dictionary as a total function reflects the spec's well-formed static
`TierConfig` (every key of the order list is configured). -/

/-- `determine_tier` (sync_loyalty_tiers.py lines 25–31): start from
`"iron"` and let every tier whose `min_deposit` the total reaches
overwrite the previous candidate; the last qualifying tier wins. -/
def determine_tier (order : List String) (minDep : String → ℚ) (total : ℚ) : String :=
  order.foldl (fun tier key => if minDep key ≤ total then key else tier) "iron"

/-- Position of the first occurrence of `a`, or `none` when absent —
models Python's `list.index`, which raises `ValueError` when absent. -/
def list_index (a : String) : List String → Option Nat
  | [] => none
  | k :: rest => if k = a then some 0 else (list_index a rest).map (· + 1)

/-- `get_next_tier_info` (sync_loyalty_tiers.py lines 34–41): the tier
after `current` in the order list together with its threshold, or
`(current, 0)` at the top tier.  The `.error` case models the uncaught
`ValueError` of `TIER_ORDER.index` when `current` is not a known tier. -/
def get_next_tier_info (order : List String) (minDep : String → ℚ) (current : String) :
    Except String (String × ℚ) :=
  match list_index current order with
  | none => .error (current ++ " is not in list")
  | some idx =>
      if idx < order.length - 1 then
        let nk := order.getD (idx + 1) current
        .ok (nk, minDep nk)
      else
        .ok (current, 0)

/-- Modelled from the spec: `CustomUser.update_loyalty_tier` lives in
`app/models.py`, which is not among the given sources.  Per spec sections
4.1–4.2 and 6 it recomputes the three stored tier fields
(`current_loyalty_status`, `next_loyalty_status`,
`next_amount_to_upgrade`) from the account's total of completed deposits
(threaded in as `totalDeposits`) and leaves `balance` and `profit`
untouched. -/
def update_loyalty_tier (order : List String) (minDep : String → ℚ) (totalDeposits : ℚ)
    (u : Account) : Account :=
  let t := determine_tier order minDep totalDeposits
  let ni := ((get_next_tier_info order minDep t).toOption).getD (t, 0)
  { u with current_loyalty_status := t, next_loyalty_status := ni.1,
           next_amount_to_upgrade := ni.2 }

/-! ## Ledger mutations (src/dashboard/views.py) -/

/-- `deposit_detail` POST branch (views.py lines 355–394): store the
posted status on the deposit and, exactly when that status is
`completed`, credit `deposit.amount` to the user's balance and recompute
the loyalty tier.  There is no check of the previous status. -/
def deposit_detail (order : List String) (minDep : String → ℚ) (totalDeposits : ℚ)
    (status : TxStatus) (u : Account) (d : Tx) : Account × Tx :=
  let d' := { d with status := status }
  if status = TxStatus.completed then
    (update_loyalty_tier order minDep totalDeposits
      { u with balance := u.balance + d'.amount }, d')
  else
    (u, d')

/-- `edit_deposit` POST branch (views.py lines 416–474), restricted to the
fields that feed the balance arithmetic (`amount`, `status`). -/
def edit_deposit (order : List String) (minDep : String → ℚ) (totalDeposits : ℚ)
    (newAmount : ℚ) (newStatus : TxStatus) (u : Account) (d : Tx) : Account × Tx :=
  let old_amount := d.amount
  let old_status := d.status
  let d' := { d with amount := newAmount, status := newStatus }
  if old_status ≠ d'.status then
    if old_status = TxStatus.completed ∧ d'.status ≠ TxStatus.completed then
      ({ u with balance := u.balance - old_amount }, d')
    else if old_status ≠ TxStatus.completed ∧ d'.status = TxStatus.completed then
      (update_loyalty_tier order minDep totalDeposits
        { u with balance := u.balance + d'.amount }, d')
    else
      (u, d')
  else if d'.status = TxStatus.completed ∧ old_amount ≠ d'.amount then
    ({ u with balance := u.balance + (d'.amount - old_amount) }, d')
  else
    (u, d')

/-- `withdrawal_detail` POST branch (views.py lines 539–575): store the
posted status; `completed` leaves the balance alone, anything else (the
form posts `failed`) refunds `withdrawal.amount`.  No previous-status
check. -/
def withdrawal_detail (status : TxStatus) (u : Account) (w : Tx) : Account × Tx :=
  let w' := { w with status := status }
  if status = TxStatus.completed then
    (u, w')
  else
    ({ u with balance := u.balance + w'.amount }, w')

/-- `edit_withdrawal` POST branch (views.py lines 596–631). -/
def edit_withdrawal (newAmount : ℚ) (newStatus : TxStatus) (u : Account) (w : Tx) :
    Account × Tx :=
  let old_amount := w.amount
  let old_status := w.status
  let w' := { w with amount := newAmount, status := newStatus }
  if old_status ≠ w'.status then
    if old_status = TxStatus.failed ∧
        (w'.status = TxStatus.completed ∨ w'.status = TxStatus.pending) then
      ({ u with balance := u.balance - w'.amount }, w')
    else if (old_status = TxStatus.completed ∨ old_status = TxStatus.pending) ∧
        w'.status = TxStatus.failed then
      ({ u with balance := u.balance + old_amount }, w')
    else
      (u, w')
  else if w'.status = TxStatus.completed ∧ old_amount ≠ w'.amount then
    ({ u with balance := u.balance - (w'.amount - old_amount) }, w')
  else
    (u, w')

/-- The spec's deposit status-effect table (spec section 4.2), written
from the spec's words for comparison against `edit_deposit`:
`effect(status, amount) = amount if status == completed else 0`. -/
def spec_deposit_effect (status : TxStatus) (amount : ℚ) : ℚ :=
  if status = TxStatus.completed then amount else 0

/-! ## Trades (src/dashboard/views.py, app/serializers.py) -/

/-- `UserCopyTraderHistory.status` choices (`open` / `closed`). -/
inductive TradeStatus where
  | opened
  | closed
deriving DecidableEq

/-- A `UserCopyTraderHistory` row restricted to the fields the monetary
logic reads.  `trader = none` marks a direct user trade (views.py
`add_user_trade` creates the record with `trader=None`). -/
structure Trade where
  trader : Option Nat
  amount : ℚ
  investment_amount : ℚ
  profit_loss_percent : ℚ
  status : TradeStatus
deriving DecidableEq

/-- Modelled from the spec:
`UserCopyTraderHistory.calculate_user_profit_loss` lives in
`app/models.py`, which is not among the given sources.  Per spec section
4.3 the currency profit/loss is `baseAmount * profitLossPercent / 100`
(the trade's `amount` field) for a trade attached to a trader, and the
direct-trade variant substitutes the separate `investment_amount` field
for `baseAmount` (the form help text for `investment_amount` in
dashboard/forms.py reads "Used to calculate the user's dollar P/L"). -/
def calculate_user_profit_loss (t : Trade) : ℚ :=
  match t.trader with
  | some _ => t.amount * t.profit_loss_percent / 100
  | none => t.investment_amount * t.profit_loss_percent / 100

/-- Per-copier body of the `add_copy_trade` fan-out loop (views.py lines
969–984): when the trade is posted `closed` with a non-zero percent
(Python truthiness of `profit_loss_percent`), add the P/L to the profit
ledger and to the balance, clamping the balance at zero on a loss. -/
def apply_copy_trade_to_user (t : Trade) (u : Account) : Account :=
  let user_pl := calculate_user_profit_loss t
  if t.status = TradeStatus.closed ∧ t.profit_loss_percent ≠ 0 then
    if 0 < user_pl then
      { u with profit := u.profit + user_pl, balance := u.balance + user_pl }
    else if user_pl < 0 then
      { u with profit := u.profit + user_pl, balance := max 0 (u.balance + user_pl) }
    else
      u
  else
    u

/-- A `UserTraderCopy` row together with its user's account state. -/
structure CopyRel where
  is_actively_copying : Bool
  initial_investment_amount : ℚ
  user : Account
deriving DecidableEq

/-- `add_copy_trade` fan-out over the copy relationships of the trade's
trader (views.py lines 962–984): the queryset keeps exactly the rows with
`is_actively_copying=True`, and each of those users is updated; rows that
are not actively copying are untouched. -/
def add_copy_trade (t : Trade) (copiers : List CopyRel) : List CopyRel :=
  copiers.map fun c =>
    if c.is_actively_copying then { c with user := apply_copy_trade_to_user t c.user } else c

/-- `add_user_trade` monetary branch (views.py lines 1425–1434): for a
trade created with `trader=None`, when posted `closed` and the computed
P/L is non-zero (Python truthiness of `profit`), credit profit and
balance, clamping the balance at zero on a loss. -/
def add_user_trade (t : Trade) (u : Account) : Account :=
  if t.status = TradeStatus.closed then
    let profit := calculate_user_profit_loss t
    if profit ≠ 0 then
      if 0 < profit then
        { u with profit := u.profit + profit, balance := u.balance + profit }
      else
        { u with profit := u.profit + profit, balance := max 0 (u.balance + profit) }
    else
      u
  else
    u

/-! ## Copier counter maintenance (src/dashboard/views.py) -/

/-- A `Trader` row restricted to its `copiers` counter. -/
structure Trader where
  copiers : ℤ
deriving DecidableEq

/-- A `UserTraderCopy` row restricted to its lifecycle flags. -/
structure CopyRecord where
  is_actively_copying : Bool
  cancel_requested : Bool
deriving DecidableEq

/-- `unlink_copier` POST branch (views.py lines 1573–1580): deactivate
the relationship and decrement the trader's counter only when it is
strictly positive. -/
def unlink_copier (c : CopyRecord) (t : Trader) : CopyRecord × Trader :=
  let c' := { c with is_actively_copying := false }
  let t' := if 0 < t.copiers then { t with copiers := t.copiers - 1 } else t
  (c', t')

/-- The two admin decisions on a cancel request. -/
inductive CancelAction where
  | accept
  | reject
deriving DecidableEq

/-- `handle_cancel_request` (views.py lines 1603–1641): a missing cancel
request is rejected with no mutation; accepting deactivates the
relationship and decrements the counter only when strictly positive;
rejecting clears the request flag. -/
def handle_cancel_request (action : CancelAction) (c : CopyRecord) (t : Trader) :
    CopyRecord × Trader :=
  if ¬c.cancel_requested then
    (c, t)
  else
    match action with
    | CancelAction.accept =>
        let c' := { c with is_actively_copying := false, cancel_requested := false }
        let t' := if 0 < t.copiers then { t with copiers := t.copiers - 1 } else t
        (c', t')
    | CancelAction.reject =>
        ({ c with cancel_requested := false }, t)

/-! ## Tier reconciliation job (sync_loyalty_tiers.py `Command.handle`) -/

/-- A `CustomUser` row as the sync job sees it: identity, the three
stored tier fields, and the user's transactions (the job reads them and
never writes them). -/
structure SyncUser where
  email : String
  current_loyalty_status : String
  next_loyalty_status : String
  next_amount_to_upgrade : ℚ
  transactions : List Tx
deriving DecidableEq

/-- `Transaction.objects.filter(user=user, transaction_type="deposit",
status="completed").aggregate(total=Sum("amount"))["total"] or 0`
(sync_loyalty_tiers.py lines 86–90). -/
def total_completed_deposits (txs : List Tx) : ℚ :=
  ((txs.filter fun tx =>
      decide (tx.transaction_type = TxKind.deposit ∧ tx.status = TxStatus.completed)).map
    Tx.amount).sum

/-- The per-user `try` body of `Command.handle` (sync_loyalty_tiers.py
lines 84–124): recompute the three tier fields and compare with the
stored ones.  Returns the (possibly updated) user and `true` when the
user was counted as updated (`false` = already correct); the `.error`
case is the caught per-user exception, raised here by the tier lookup of
`get_next_tier_info`. -/
def sync_one_user (apply : Bool) (order : List String) (minDep : String → ℚ)
    (u : SyncUser) : Except String (SyncUser × Bool) :=
  let total := total_completed_deposits u.transactions
  let correct := determine_tier order minDep total
  match get_next_tier_info order minDep correct with
  | .error e => .error e
  | .ok (nt, na) =>
      if u.current_loyalty_status ≠ correct ∨ u.next_loyalty_status ≠ nt ∨
          u.next_amount_to_upgrade ≠ na then
        if apply then
          .ok ({ u with current_loyalty_status := correct, next_loyalty_status := nt,
                        next_amount_to_upgrade := na }, true)
        else
          .ok (u, true)
      else
        .ok (u, false)

/-- Loop of `Command.handle` over the id-ordered users: resulting user
list, `already_correct` count, `updated` count, and the collected
`(email, message)` error list.  A failing user is left unchanged and the
loop continues. -/
def handle_users (apply : Bool) (order : List String) (minDep : String → ℚ) :
    List SyncUser → List SyncUser × Nat × Nat × List (String × String)
  | [] => ([], 0, 0, [])
  | u :: rest =>
      let r := handle_users apply order minDep rest
      match sync_one_user apply order minDep u with
      | .error e => (u :: r.1, r.2.1, r.2.2.1, (u.email, e) :: r.2.2.2)
      | .ok (u', true) => (u' :: r.1, r.2.1, r.2.2.1 + 1, r.2.2.2)
      | .ok (u', false) => (u' :: r.1, r.2.1 + 1, r.2.2.1, r.2.2.2)

/-- The final report printed by `Command.handle` (lines 132–143). -/
structure Report where
  total : Nat
  already_correct : Nat
  updated : Nat
  errors : List (String × String)
deriving DecidableEq

/-- `Command.handle` (sync_loyalty_tiers.py lines 55–143): process every
user and report the counts and the error list. -/
def handle (apply : Bool) (order : List String) (minDep : String → ℚ)
    (users : List SyncUser) : List SyncUser × Report :=
  let r := handle_users apply order minDep users
  (r.1, { total := users.length, already_correct := r.2.1, updated := r.2.2.1,
          errors := r.2.2.2 })

/-- Whether the per-user body fails for `u`: the recomputed tier is not a
key of the order list, so `get_next_tier_info`'s `.index` lookup raises. -/
def tier_lookup_fails (order : List String) (minDep : String → ℚ) (u : SyncUser) : Bool :=
  (list_index (determine_tier order minDep (total_completed_deposits u.transactions))
    order).isNone

/-! ## Helper lemmas -/

lemma update_loyalty_tier_balance (order : List String) (minDep : String → ℚ)
    (td : ℚ) (u : Account) :
    (update_loyalty_tier order minDep td u).balance = u.balance := rfl

/-- Generalised accumulator form of `determine_tier`: the fold keeps the
last qualifying key, i.e. the first qualifying key when the order list is
scanned from its top (highest) end. -/
lemma determine_tier_foldl (minDep : String → ℚ) (total : ℚ) :
    ∀ (l : List String) (acc : String),
      l.foldl (fun tier key => if minDep key ≤ total then key else tier) acc
        = ((l.reverse.find? fun k => decide (minDep k ≤ total)).getD acc) := by
  intro l
  induction l with
  | nil => intro acc; rfl
  | cons b t ih =>
      intro acc
      simp only [List.foldl_cons, List.reverse_cons, List.find?_append, ih]
      cases hf : t.reverse.find? (fun k => decide (minDep k ≤ total)) with
      | some v => simp
      | none => by_cases hb : minDep b ≤ total <;> simp [List.find?, hb]

/-- The fold of `determine_tier` only ever returns a key of the list or
its starting accumulator `"iron"`. -/
lemma determine_tier_mem_or_iron (order : List String) (minDep : String → ℚ)
    (total : ℚ) :
    determine_tier order minDep total ∈ order ∨
      determine_tier order minDep total = "iron" := by
  suffices h : ∀ (l : List String) (acc : String),
      l.foldl (fun tier key => if minDep key ≤ total then key else tier) acc ∈ l ∨
        l.foldl (fun tier key => if minDep key ≤ total then key else tier) acc = acc from
    h order "iron"
  intro l
  induction l with
  | nil => intro acc; exact Or.inr rfl
  | cons b t ih =>
      intro acc
      rcases ih (if minDep b ≤ total then b else acc) with h1 | h1
      · exact Or.inl (List.mem_cons_of_mem _ h1)
      · rw [List.foldl_cons, h1]
        by_cases hb : minDep b ≤ total <;> simp [hb]

lemma list_index_isSome_of_mem {a : String} :
    ∀ {l : List String}, a ∈ l → (list_index a l).isSome = true := by
  intro l
  induction l with
  | nil => intro h; cases h
  | cons b t ih =>
      intro h
      by_cases hb : b = a
      · simp [list_index, hb]
      · have hmem : a ∈ t := by
          rcases List.mem_cons.mp h with h1 | h1
          · exact absurd h1.symm hb
          · exact h1
        have ht := ih hmem
        cases hidx : list_index a t with
        | none => rw [hidx] at ht; simp at ht
        | some i => simp [list_index, hb, hidx]

lemma get_next_tier_info_error_of_none (order : List String) (minDep : String → ℚ)
    (current : String) (h : list_index current order = none) :
    get_next_tier_info order minDep current
      = Except.error (current ++ " is not in list") := by
  unfold get_next_tier_info
  rw [h]

lemma get_next_tier_info_ok_of_some (order : List String) (minDep : String → ℚ)
    (current : String) (idx : Nat) (h : list_index current order = some idx) :
    ∃ p, get_next_tier_info order minDep current = Except.ok p := by
  simp only [get_next_tier_info, h]
  by_cases hlt : idx < order.length - 1
  · simp [hlt]
  · simp [hlt]

lemma get_next_tier_info_ok_of_mem (order : List String) (minDep : String → ℚ)
    {current : String} (h : current ∈ order) :
    ∃ p, get_next_tier_info order minDep current = Except.ok p := by
  have hs := list_index_isSome_of_mem h
  cases hidx : list_index current order with
  | none => rw [hidx] at hs; simp at hs
  | some idx => exact get_next_tier_info_ok_of_some order minDep current idx hidx

/-- Unfolding equation for `sync_one_user` once the tier lookup is known
to succeed. -/
lemma sync_one_user_eq (apply : Bool) (order : List String) (minDep : String → ℚ)
    (u : SyncUser) {nt : String} {na : ℚ}
    (hok : get_next_tier_info order minDep
        (determine_tier order minDep (total_completed_deposits u.transactions))
      = Except.ok (nt, na)) :
    sync_one_user apply order minDep u =
      (if u.current_loyalty_status
            ≠ determine_tier order minDep (total_completed_deposits u.transactions) ∨
          u.next_loyalty_status ≠ nt ∨ u.next_amount_to_upgrade ≠ na then
        if apply then
          Except.ok ({ u with
            current_loyalty_status :=
              determine_tier order minDep (total_completed_deposits u.transactions),
            next_loyalty_status := nt, next_amount_to_upgrade := na }, true)
        else
          Except.ok (u, true)
      else
        Except.ok (u, false)) := by
  simp only [sync_one_user, hok]

lemma sync_one_user_error (apply : Bool) (order : List String) (minDep : String → ℚ)
    (u : SyncUser) (e : String)
    (herr : get_next_tier_info order minDep
        (determine_tier order minDep (total_completed_deposits u.transactions))
      = Except.error e) :
    sync_one_user apply order minDep u = Except.error e := by
  simp only [sync_one_user, herr]

lemma sync_one_user_isOk (apply : Bool) (order : List String) (minDep : String → ℚ)
    (u : SyncUser) (idx : Nat)
    (hidx : list_index (determine_tier order minDep
        (total_completed_deposits u.transactions)) order = some idx) :
    ∃ r, sync_one_user apply order minDep u = Except.ok r := by
  obtain ⟨⟨nt, na⟩, hok⟩ := get_next_tier_info_ok_of_some order minDep _ idx hidx
  rw [sync_one_user_eq apply order minDep u hok]
  by_cases hneed : u.current_loyalty_status
        ≠ determine_tier order minDep (total_completed_deposits u.transactions) ∨
      u.next_loyalty_status ≠ nt ∨ u.next_amount_to_upgrade ≠ na
  · cases apply <;> simp [hneed]
  · simp [hneed]

/-- With a well-formed order list (containing the `"iron"` floor), an
apply-mode pass over one user succeeds and yields a user on which a
second apply-mode pass is a no-op counted as already correct. -/
lemma sync_one_user_ok_stable (order : List String) (minDep : String → ℚ)
    (hiron : "iron" ∈ order) (u : SyncUser) :
    ∃ u' b, sync_one_user true order minDep u = Except.ok (u', b) ∧
      sync_one_user true order minDep u' = Except.ok (u', false) := by
  have hmem : determine_tier order minDep (total_completed_deposits u.transactions)
      ∈ order := by
    rcases determine_tier_mem_or_iron order minDep
        (total_completed_deposits u.transactions) with h | h
    · exact h
    · rw [h]; exact hiron
  obtain ⟨⟨nt, na⟩, hok⟩ := get_next_tier_info_ok_of_mem order minDep hmem
  by_cases hneed : u.current_loyalty_status
        ≠ determine_tier order minDep (total_completed_deposits u.transactions) ∨
      u.next_loyalty_status ≠ nt ∨ u.next_amount_to_upgrade ≠ na
  · refine ⟨{ u with
        current_loyalty_status :=
          determine_tier order minDep (total_completed_deposits u.transactions),
        next_loyalty_status := nt, next_amount_to_upgrade := na }, true, ?_, ?_⟩
    · rw [sync_one_user_eq true order minDep u hok, if_pos hneed, if_pos rfl]
    · have hok2 : get_next_tier_info order minDep
          (determine_tier order minDep (total_completed_deposits
            ({ u with
                current_loyalty_status :=
                  determine_tier order minDep (total_completed_deposits u.transactions),
                next_loyalty_status := nt,
                next_amount_to_upgrade := na } : SyncUser).transactions))
          = Except.ok (nt, na) := hok
      rw [sync_one_user_eq true order minDep _ hok2, if_neg (by simp)]
  · exact ⟨u, false, by rw [sync_one_user_eq true order minDep u hok, if_neg hneed],
      by rw [sync_one_user_eq true order minDep u hok, if_neg hneed]⟩

lemma handle_users_length (apply : Bool) (order : List String) (minDep : String → ℚ) :
    ∀ l : List SyncUser, (handle_users apply order minDep l).1.length = l.length := by
  intro l
  induction l with
  | nil => rfl
  | cons u t ih =>
      simp only [handle_users]
      cases h : sync_one_user apply order minDep u with
      | error e => simp [ih]
      | ok p =>
          obtain ⟨u', b⟩ := p
          cases b <;> simp [ih]

/-- A run over a list of users on which every per-user pass is an
already-correct no-op leaves the list unchanged and reports zero updates
and no errors. -/
lemma handle_users_stable (order : List String) (minDep : String → ℚ) :
    ∀ l : List SyncUser,
      (∀ u ∈ l, sync_one_user true order minDep u = Except.ok (u, false)) →
      handle_users true order minDep l = (l, l.length, 0, []) := by
  intro l
  induction l with
  | nil => intro _; rfl
  | cons u t ih =>
      intro hall
      have hu := hall u (List.mem_cons_self u t)
      have ht := ih fun v hv => hall v (List.mem_cons_of_mem u hv)
      simp [handle_users, hu, ht]

/-- Every user in the output of an apply-mode run is stable for the next
apply-mode run. -/
lemma handle_users_output_stable (order : List String) (minDep : String → ℚ)
    (hiron : "iron" ∈ order) :
    ∀ l : List SyncUser, ∀ u' ∈ (handle_users true order minDep l).1,
      sync_one_user true order minDep u' = Except.ok (u', false) := by
  intro l
  induction l with
  | nil => intro u' h; simp [handle_users] at h
  | cons u t ih =>
      intro u' hmem
      obtain ⟨v, b, hv, hstab⟩ := sync_one_user_ok_stable order minDep hiron u
      simp only [handle_users, hv] at hmem
      cases b
      · rcases List.mem_cons.mp hmem with h1 | h1
        · rw [h1]; exact hstab
        · exact ih u' h1
      · rcases List.mem_cons.mp hmem with h1 | h1
        · rw [h1]; exact hstab
        · exact ih u' h1

/-- Error collection and progress accounting of the per-user loop: the
collected error keys are exactly the emails of the users whose tier
lookup fails, in order, and the two success counters add up to the number
of users whose pass succeeds. -/
lemma handle_users_report (apply : Bool) (order : List String) (minDep : String → ℚ) :
    ∀ l : List SyncUser,
      ((handle_users apply order minDep l).2.2.2.map Prod.fst
        = (l.filter (tier_lookup_fails order minDep)).map SyncUser.email) ∧
      ((handle_users apply order minDep l).2.1 + (handle_users apply order minDep l).2.2.1
        = (l.filter fun u => !tier_lookup_fails order minDep u).length) := by
  intro l
  induction l with
  | nil => exact ⟨rfl, rfl⟩
  | cons u t ih =>
      cases hidx : list_index (determine_tier order minDep
          (total_completed_deposits u.transactions)) order with
      | none =>
          have hfail : tier_lookup_fails order minDep u = true := by
            simp [tier_lookup_fails, hidx]
          have herr := sync_one_user_error apply order minDep u _
            (get_next_tier_info_error_of_none order minDep _ hidx)
          constructor
          · simp [handle_users, herr, List.filter_cons, hfail, ih.1]
          · simp [handle_users, herr, List.filter_cons, hfail, ih.2]
      | some idx =>
          have hfail : tier_lookup_fails order minDep u = false := by
            simp [tier_lookup_fails, hidx]
          obtain ⟨⟨u', b⟩, hr⟩ := sync_one_user_isOk apply order minDep u idx hidx
          cases b
          · constructor
            · simp [handle_users, hr, List.filter_cons, hfail, ih.1]
            · have := ih.2
              simp [handle_users, hr, List.filter_cons, hfail]
              omega
          · constructor
            · simp [handle_users, hr, List.filter_cons, hfail, ih.1]
            · have := ih.2
              simp [handle_users, hr, List.filter_cons, hfail]
              omega

/-! ## Claims -/

/-- **C4**: every `edit_deposit` balance delta equals
`effect(newStatus, newAmount) - effect(oldStatus, oldAmount)` with
`effect(status, amount) = amount` when the status is `completed` and `0`
otherwise; consequently editing a pending deposit of 100 through
`completed`, then `failed`, then `completed` again leaves the account
exactly 100 above its starting balance. -/
theorem edit_deposit_delta_is_effect_difference (order : List String)
    (minDep : String → ℚ) (td : ℚ) (newAmount : ℚ) (newStatus : TxStatus)
    (u : Account) (d : Tx) :
    ((edit_deposit order minDep td newAmount newStatus u d).1.balance - u.balance
        = spec_deposit_effect newStatus newAmount
            - spec_deposit_effect d.status d.amount) ∧
    (∀ (v : Account) (td1 td2 td3 : ℚ),
      (edit_deposit order minDep td3 100 TxStatus.completed
        (edit_deposit order minDep td2 100 TxStatus.failed
          (edit_deposit order minDep td1 100 TxStatus.completed v
            ⟨TxKind.deposit, 100, TxStatus.pending⟩).1
          (edit_deposit order minDep td1 100 TxStatus.completed v
            ⟨TxKind.deposit, 100, TxStatus.pending⟩).2).1
        (edit_deposit order minDep td2 100 TxStatus.failed
          (edit_deposit order minDep td1 100 TxStatus.completed v
            ⟨TxKind.deposit, 100, TxStatus.pending⟩).1
          (edit_deposit order minDep td1 100 TxStatus.completed v
            ⟨TxKind.deposit, 100, TxStatus.pending⟩).2).2).1.balance
        = v.balance + 100) := by
  constructor
  · rcases d with ⟨k, a, s⟩
    rcases eq_or_ne a newAmount with ha | ha <;>
      cases s <;> cases newStatus <;>
        simp [edit_deposit, spec_deposit_effect, update_loyalty_tier, ha]
  · intro v td1 td2 td3
    simp [edit_deposit, update_loyalty_tier]

/-- **C5**: `edit_withdrawal` transition deltas — moving from `pending`
or `completed` into `failed` refunds the old amount, moving out of
`failed` into `pending` or `completed` deducts the new amount, and an
amount change while the status stays `completed` deducts the signed
difference `newAmount - oldAmount`. -/
theorem edit_withdrawal_transition_deltas (u : Account) (oldA newA : ℚ) (k : TxKind) :
    ((edit_withdrawal newA TxStatus.failed u ⟨k, oldA, TxStatus.pending⟩).1.balance
        = u.balance + oldA) ∧
    ((edit_withdrawal newA TxStatus.failed u ⟨k, oldA, TxStatus.completed⟩).1.balance
        = u.balance + oldA) ∧
    ((edit_withdrawal newA TxStatus.pending u ⟨k, oldA, TxStatus.failed⟩).1.balance
        = u.balance - newA) ∧
    ((edit_withdrawal newA TxStatus.completed u ⟨k, oldA, TxStatus.failed⟩).1.balance
        = u.balance - newA) ∧
    ((edit_withdrawal newA TxStatus.completed u ⟨k, oldA, TxStatus.completed⟩).1.balance
        = u.balance - (newA - oldA)) := by
  refine ⟨?_, ?_, ?_, ?_, ?_⟩ <;>
    rcases eq_or_ne oldA newA with ha | ha <;>
      simp [edit_withdrawal, ha]

/-- **C1 (amended)**: re-saving a transaction with its current
`(status, amount)` applies a zero balance delta on the edit paths
(`edit_deposit`, `edit_withdrawal`); the approval paths re-apply the full
status effect on every save — `deposit_detail` credits the amount
whenever the posted status is `completed` and `withdrawal_detail` refunds
the amount whenever it is not `completed`, regardless of the previous
status. -/
theorem resave_identical_status_amount_deltas (order : List String)
    (minDep : String → ℚ) (td : ℚ) (u : Account) (d w : Tx) (s : TxStatus) :
    ((edit_deposit order minDep td d.amount d.status u d).1.balance = u.balance) ∧
    ((edit_withdrawal w.amount w.status u w).1.balance = u.balance) ∧
    ((deposit_detail order minDep td s u d).1.balance
        = u.balance + (if s = TxStatus.completed then d.amount else 0)) ∧
    ((withdrawal_detail s u w).1.balance
        = u.balance + (if s = TxStatus.completed then 0 else w.amount)) := by
  refine ⟨?_, ?_, ?_, ?_⟩
  · simp [edit_deposit]
  · simp [edit_withdrawal]
  · rcases eq_or_ne s TxStatus.completed with hs | hs <;>
      simp [deposit_detail, update_loyalty_tier, hs]
  · rcases eq_or_ne s TxStatus.completed with hs | hs <;>
      simp [withdrawal_detail, hs]

/-- **C1 (counterexample)**: approving the same deposit twice with the
same `(status, amount) = (completed, 100)` credits the amount again on
the second save, so the second save's balance delta is 100, not zero. -/
theorem deposit_approval_resave_not_zero_delta :
    (deposit_detail ["iron"] (fun _ => 0) 100 TxStatus.completed
        (deposit_detail ["iron"] (fun _ => 0) 100 TxStatus.completed
          ⟨0, 0, "iron", "iron", 0⟩ ⟨TxKind.deposit, 100, TxStatus.pending⟩).1
        (deposit_detail ["iron"] (fun _ => 0) 100 TxStatus.completed
          ⟨0, 0, "iron", "iron", 0⟩ ⟨TxKind.deposit, 100, TxStatus.pending⟩).2).1.balance
      -
      (deposit_detail ["iron"] (fun _ => 0) 100 TxStatus.completed
        ⟨0, 0, "iron", "iron", 0⟩ ⟨TxKind.deposit, 100, TxStatus.pending⟩).1.balance
      = 100 ∧
    (deposit_detail ["iron"] (fun _ => 0) 100 TxStatus.completed
        ⟨0, 0, "iron", "iron", 0⟩ ⟨TxKind.deposit, 100, TxStatus.pending⟩).2.status
      = TxStatus.completed ∧
    (deposit_detail ["iron"] (fun _ => 0) 100 TxStatus.completed
        ⟨0, 0, "iron", "iron", 0⟩ ⟨TxKind.deposit, 100, TxStatus.pending⟩).2.amount
      = 100 ∧
    (100 : ℚ) ≠ 0 := by
  refine ⟨?_, rfl, rfl, by norm_num⟩
  norm_num [deposit_detail, update_loyalty_tier]

/-- **C10**: the unlink operation and both cancel-request decisions
decrement the trader's copier counter only when it is strictly positive,
so a non-negative counter stays non-negative. -/
theorem copier_counter_stays_nonneg (c : CopyRecord) (t : Trader)
    (h : 0 ≤ t.copiers) :
    (0 ≤ (unlink_copier c t).2.copiers) ∧
    (∀ a : CancelAction, 0 ≤ (handle_cancel_request a c t).2.copiers) ∧
    (0 < t.copiers → (unlink_copier c t).2.copiers = t.copiers - 1) ∧
    (¬0 < t.copiers → (unlink_copier c t).2.copiers = t.copiers ∧
        ∀ a : CancelAction, (handle_cancel_request a c t).2.copiers = t.copiers) := by
  have hun : (unlink_copier c t).2.copiers
      = if 0 < t.copiers then t.copiers - 1 else t.copiers := by
    by_cases hpos : 0 < t.copiers <;> simp [unlink_copier, hpos]
  have hacc : ∀ a, (handle_cancel_request a c t).2.copiers
      = if a = CancelAction.accept ∧ c.cancel_requested ∧ 0 < t.copiers
        then t.copiers - 1 else t.copiers := by
    intro a
    cases a <;> by_cases hc : c.cancel_requested = true <;>
      by_cases hpos : 0 < t.copiers <;>
        simp [handle_cancel_request, hc, hpos]
  refine ⟨?_, ?_, ?_, ?_⟩
  · rw [hun]; split <;> omega
  · intro a; rw [hacc a]; split <;> omega
  · intro hp; rw [hun]; simp [hp]
  · intro hn
    refine ⟨by rw [hun]; simp [hn], fun a => ?_⟩
    rw [hacc a]; simp [hn]

/-- **C2**: recording a closed trade for a trader applies the single
currency P/L `pl = amount * profit_loss_percent / 100` to every actively
copying relationship: the updated relationship is in the fan-out result,
its user's profit grows by exactly `pl` (never re-scaled by the copier's
own `initial_investment_amount`), and its balance becomes
`balance + pl` when `pl > 0` and `max 0 (balance + pl)` otherwise. -/
theorem copy_trade_fanout_effect (t : Trade) (tid : Nat) (copiers : List CopyRel)
    (c : CopyRel) (htr : t.trader = some tid) (hst : t.status = TradeStatus.closed)
    (hc : c ∈ copiers) (hact : c.is_actively_copying = true)
    (hbal : 0 ≤ c.user.balance) :
    ({ c with user := apply_copy_trade_to_user t c.user } ∈ add_copy_trade t copiers) ∧
    ((apply_copy_trade_to_user t c.user).profit
        = c.user.profit + t.amount * t.profit_loss_percent / 100) ∧
    ((apply_copy_trade_to_user t c.user).balance
        = if 0 < t.amount * t.profit_loss_percent / 100 then
            c.user.balance + t.amount * t.profit_loss_percent / 100
          else
            max 0 (c.user.balance + t.amount * t.profit_loss_percent / 100)) := by
  have hpl : calculate_user_profit_loss t = t.amount * t.profit_loss_percent / 100 := by
    simp [calculate_user_profit_loss, htr]
  refine ⟨?_, ?_, ?_⟩
  · have hmem := List.mem_map_of_mem
      (fun c => if c.is_actively_copying then
        { c with user := apply_copy_trade_to_user t c.user } else c) hc
    simpa [add_copy_trade, hact] using hmem
  · by_cases hp : t.profit_loss_percent = 0
    · simp [apply_copy_trade_to_user, hpl, hp]
    · rcases lt_trichotomy (t.amount * t.profit_loss_percent / 100) 0 with hlt | heq | hgt
      · simp [apply_copy_trade_to_user, hpl, hst, hp, hlt, not_lt.mpr hlt.le]
      · simp [apply_copy_trade_to_user, hpl, hst, hp, heq]
      · simp [apply_copy_trade_to_user, hpl, hst, hp, hgt]
  · by_cases hp : t.profit_loss_percent = 0
    · simp [apply_copy_trade_to_user, hpl, hp, max_eq_right hbal]
    · rcases lt_trichotomy (t.amount * t.profit_loss_percent / 100) 0 with hlt | heq | hgt
      · simp [apply_copy_trade_to_user, hpl, hst, hp, hlt, not_lt.mpr hlt.le]
      · simp [apply_copy_trade_to_user, hpl, hst, hp, heq, max_eq_right hbal]
      · simp [apply_copy_trade_to_user, hpl, hst, hp, hgt]

/-- Witness for `copy_trade_fanout_effect`: one active copier of a closed
trade with amount 1000 and percent 20. -/
theorem copy_trade_fanout_effect_witness :
    ((Trade.mk (some 0) 1000 0 20 TradeStatus.closed).trader = some 0 ∧
      (Trade.mk (some 0) 1000 0 20 TradeStatus.closed).status = TradeStatus.closed ∧
      CopyRel.mk true 777 ⟨10, 0, "iron", "iron", 0⟩
        ∈ [CopyRel.mk true 777 ⟨10, 0, "iron", "iron", 0⟩] ∧
      (CopyRel.mk true 777 ⟨10, 0, "iron", "iron", 0⟩).is_actively_copying = true ∧
      0 ≤ (CopyRel.mk true 777 ⟨10, 0, "iron", "iron", 0⟩).user.balance) ∧
    (({ CopyRel.mk true 777 ⟨10, 0, "iron", "iron", 0⟩ with
          user := apply_copy_trade_to_user (Trade.mk (some 0) 1000 0 20 TradeStatus.closed)
            (CopyRel.mk true 777 ⟨10, 0, "iron", "iron", 0⟩).user }
        ∈ add_copy_trade (Trade.mk (some 0) 1000 0 20 TradeStatus.closed)
            [CopyRel.mk true 777 ⟨10, 0, "iron", "iron", 0⟩]) ∧
      ((apply_copy_trade_to_user (Trade.mk (some 0) 1000 0 20 TradeStatus.closed)
          (CopyRel.mk true 777 ⟨10, 0, "iron", "iron", 0⟩).user).profit
        = (CopyRel.mk true 777 ⟨10, 0, "iron", "iron", 0⟩).user.profit
            + (Trade.mk (some 0) 1000 0 20 TradeStatus.closed).amount
                * (Trade.mk (some 0) 1000 0 20 TradeStatus.closed).profit_loss_percent
                / 100) ∧
      ((apply_copy_trade_to_user (Trade.mk (some 0) 1000 0 20 TradeStatus.closed)
          (CopyRel.mk true 777 ⟨10, 0, "iron", "iron", 0⟩).user).balance
        = if 0 < (Trade.mk (some 0) 1000 0 20 TradeStatus.closed).amount
                * (Trade.mk (some 0) 1000 0 20 TradeStatus.closed).profit_loss_percent
                / 100 then
            (CopyRel.mk true 777 ⟨10, 0, "iron", "iron", 0⟩).user.balance
              + (Trade.mk (some 0) 1000 0 20 TradeStatus.closed).amount
                  * (Trade.mk (some 0) 1000 0 20 TradeStatus.closed).profit_loss_percent
                  / 100
          else
            max 0 ((CopyRel.mk true 777 ⟨10, 0, "iron", "iron", 0⟩).user.balance
              + (Trade.mk (some 0) 1000 0 20 TradeStatus.closed).amount
                  * (Trade.mk (some 0) 1000 0 20 TradeStatus.closed).profit_loss_percent
                  / 100))) :=
  ⟨⟨rfl, rfl, List.Mem.head _, rfl, by decide⟩,
    copy_trade_fanout_effect _ 0 _ _ rfl rfl (List.Mem.head _) rfl (by decide)⟩

/-- **C3**: a closed direct trade (`trader = none`) credits the user from
the user-specific `investment_amount`, not from the notional market
`amount`: the profit delta is `investment_amount * profit_loss_percent /
100`, the balance follows the same clamped rule, and the whole update is
invariant under changing the `amount` field. -/
theorem direct_trade_uses_investment_amount (t : Trade) (u : Account)
    (htr : t.trader = none) (hst : t.status = TradeStatus.closed)
    (hbal : 0 ≤ u.balance) :
    ((add_user_trade t u).profit
        = u.profit + t.investment_amount * t.profit_loss_percent / 100) ∧
    ((add_user_trade t u).balance
        = if 0 < t.investment_amount * t.profit_loss_percent / 100 then
            u.balance + t.investment_amount * t.profit_loss_percent / 100
          else
            max 0 (u.balance + t.investment_amount * t.profit_loss_percent / 100)) ∧
    (∀ a : ℚ, add_user_trade { t with amount := a } u = add_user_trade t u) := by
  have hpl : calculate_user_profit_loss t
      = t.investment_amount * t.profit_loss_percent / 100 := by
    simp [calculate_user_profit_loss, htr]
  refine ⟨?_, ?_, ?_⟩
  · rcases lt_trichotomy (t.investment_amount * t.profit_loss_percent / 100) 0 with
      hlt | heq | hgt
    · simp [add_user_trade, hpl, hst, hlt.ne, not_lt.mpr hlt.le]
    · simp [add_user_trade, hpl, hst, heq]
    · simp [add_user_trade, hpl, hst, hgt.ne.symm, hgt]
  · rcases lt_trichotomy (t.investment_amount * t.profit_loss_percent / 100) 0 with
      hlt | heq | hgt
    · simp [add_user_trade, hpl, hst, hlt.ne, not_lt.mpr hlt.le]
    · simp [add_user_trade, hpl, hst, heq, max_eq_right hbal]
    · simp [add_user_trade, hpl, hst, hgt.ne.symm, hgt]
  · intro a
    simp [add_user_trade, calculate_user_profit_loss, htr]

/-- Witness for `direct_trade_uses_investment_amount`: a closed direct
trade with market amount 999 but investment amount 1000 and percent 20. -/
theorem direct_trade_uses_investment_amount_witness :
    ((Trade.mk none 999 1000 20 TradeStatus.closed).trader = none ∧
      (Trade.mk none 999 1000 20 TradeStatus.closed).status = TradeStatus.closed ∧
      0 ≤ (Account.mk 10 0 "iron" "iron" 0).balance) ∧
    (((add_user_trade (Trade.mk none 999 1000 20 TradeStatus.closed)
          (Account.mk 10 0 "iron" "iron" 0)).profit
        = (Account.mk 10 0 "iron" "iron" 0).profit
            + (Trade.mk none 999 1000 20 TradeStatus.closed).investment_amount
                * (Trade.mk none 999 1000 20 TradeStatus.closed).profit_loss_percent
                / 100) ∧
      ((add_user_trade (Trade.mk none 999 1000 20 TradeStatus.closed)
          (Account.mk 10 0 "iron" "iron" 0)).balance
        = if 0 < (Trade.mk none 999 1000 20 TradeStatus.closed).investment_amount
                * (Trade.mk none 999 1000 20 TradeStatus.closed).profit_loss_percent
                / 100 then
            (Account.mk 10 0 "iron" "iron" 0).balance
              + (Trade.mk none 999 1000 20 TradeStatus.closed).investment_amount
                  * (Trade.mk none 999 1000 20 TradeStatus.closed).profit_loss_percent
                  / 100
          else
            max 0 ((Account.mk 10 0 "iron" "iron" 0).balance
              + (Trade.mk none 999 1000 20 TradeStatus.closed).investment_amount
                  * (Trade.mk none 999 1000 20 TradeStatus.closed).profit_loss_percent
                  / 100)) ∧
      (∀ a : ℚ, add_user_trade
          { Trade.mk none 999 1000 20 TradeStatus.closed with amount := a }
          (Account.mk 10 0 "iron" "iron" 0)
        = add_user_trade (Trade.mk none 999 1000 20 TradeStatus.closed)
            (Account.mk 10 0 "iron" "iron" 0))) :=
  ⟨⟨rfl, rfl, by decide⟩,
    direct_trade_uses_investment_amount _ _ rfl rfl (by decide)⟩

/-- The per-user trade-application of the fan-out keeps a non-negative
balance non-negative. -/
lemma apply_copy_trade_to_user_nonneg (t : Trade) (u : Account)
    (hbal : 0 ≤ u.balance) : 0 ≤ (apply_copy_trade_to_user t u).balance := by
  by_cases hg : t.status = TradeStatus.closed ∧ t.profit_loss_percent ≠ 0
  · obtain ⟨h1, h2⟩ := hg
    rcases lt_trichotomy (calculate_user_profit_loss t) 0 with hlt | heq | hgt
    · simp [apply_copy_trade_to_user, h1, h2, hlt, not_lt.mpr hlt.le]
    · simp [apply_copy_trade_to_user, h1, h2, heq]
      exact hbal
    · simp [apply_copy_trade_to_user, h1, h2, hgt]
      linarith
  · simp [apply_copy_trade_to_user, hg]
    exact hbal

/-- The direct-trade path keeps a non-negative balance non-negative. -/
lemma add_user_trade_nonneg (t : Trade) (u : Account)
    (hbal : 0 ≤ u.balance) : 0 ≤ (add_user_trade t u).balance := by
  by_cases hs : t.status = TradeStatus.closed
  · rcases lt_trichotomy (calculate_user_profit_loss t) 0 with hlt | heq | hgt
    · simp [add_user_trade, hs, hlt.ne, not_lt.mpr hlt.le]
    · simp [add_user_trade, hs, heq]
      exact hbal
    · simp [add_user_trade, hs, hgt.ne.symm, hgt]
      linarith
  · simp [add_user_trade, hs]
    exact hbal

/-- **C6 (amended)**: the trade paths — per-copier fan-out application
and the direct trade — preserve a non-negative balance (they clamp losses
at zero); the claim's extension to the deposit-edit and withdrawal-edit
paths fails, see the counterexample. -/
theorem trade_paths_preserve_nonneg (t : Trade) (u : Account)
    (hbal : 0 ≤ u.balance) :
    (0 ≤ (apply_copy_trade_to_user t u).balance) ∧
    (0 ≤ (add_user_trade t u).balance) ∧
    (∀ copiers : List CopyRel, (∀ c ∈ copiers, 0 ≤ c.user.balance) →
      ∀ c' ∈ add_copy_trade t copiers, 0 ≤ c'.user.balance) := by
  refine ⟨apply_copy_trade_to_user_nonneg t u hbal,
    add_user_trade_nonneg t u hbal, ?_⟩
  intro copiers hall c' hc'
  simp only [add_copy_trade, List.mem_map] at hc'
  obtain ⟨c, hcmem, hceq⟩ := hc'
  by_cases hact : c.is_actively_copying = true
  · rw [← hceq]
    simpa [hact] using apply_copy_trade_to_user_nonneg t c.user (hall c hcmem)
  · rw [← hceq]
    simpa [hact] using hall c hcmem

/-- Witness for `trade_paths_preserve_nonneg`: a 400% loss on a balance
of 50 clamps at zero instead of going negative. -/
theorem trade_paths_preserve_nonneg_witness :
    (0 ≤ (Account.mk 50 0 "iron" "iron" 0).balance) ∧
    ((0 ≤ (apply_copy_trade_to_user (Trade.mk (some 0) 100 100 (-400) TradeStatus.closed)
        (Account.mk 50 0 "iron" "iron" 0)).balance) ∧
      (0 ≤ (add_user_trade (Trade.mk (some 0) 100 100 (-400) TradeStatus.closed)
        (Account.mk 50 0 "iron" "iron" 0)).balance) ∧
      (∀ copiers : List CopyRel, (∀ c ∈ copiers, 0 ≤ c.user.balance) →
        ∀ c' ∈ add_copy_trade (Trade.mk (some 0) 100 100 (-400) TradeStatus.closed) copiers,
          0 ≤ c'.user.balance)) :=
  ⟨by decide, trade_paths_preserve_nonneg _ _ (by decide)⟩

/-- **C6 (counterexample)**: editing a completed deposit of 100 to
`failed` on an account holding 50 drives the balance to -50: the edit
paths do not clamp at zero, so non-negativity is not preserved by every
engine mutation. -/
theorem edit_deposit_can_go_negative :
    (0 ≤ (Account.mk 50 0 "iron" "iron" 0).balance) ∧
    ((edit_deposit ["iron"] (fun _ => 0) 0 100 TxStatus.failed
        (Account.mk 50 0 "iron" "iron" 0)
        ⟨TxKind.deposit, 100, TxStatus.completed⟩).1.balance = -50) ∧
    ((edit_deposit ["iron"] (fun _ => 0) 0 100 TxStatus.failed
        (Account.mk 50 0 "iron" "iron" 0)
        ⟨TxKind.deposit, 100, TxStatus.completed⟩).1.balance < 0) := by
  refine ⟨by norm_num, ?_, ?_⟩ <;> simp [edit_deposit] <;> norm_num

/-- **C7**: for every deposit total, `determine_tier` returns the first
tier, scanning the ordered tier list from its highest end, whose
`min_deposit` threshold is ≤ the total — the comparison is `≥`, so a
total exactly equal to a threshold yields that higher tier — and the
entry tier `"iron"` is the floor when no threshold is met. -/
theorem determine_tier_is_highest_qualifying (order : List String)
    (minDep : String → ℚ) (total : ℚ) :
    (determine_tier order minDep total
      = ((order.reverse.find? fun k => decide (minDep k ≤ total)).getD "iron")) ∧
    ((∀ k ∈ order, ¬minDep k ≤ total) →
      determine_tier order minDep total = "iron") := by
  have hmain : determine_tier order minDep total
      = ((order.reverse.find? fun k => decide (minDep k ≤ total)).getD "iron") :=
    determine_tier_foldl minDep total order "iron"
  refine ⟨hmain, fun hnone => ?_⟩
  rw [hmain]
  have hfind : order.reverse.find? (fun k => decide (minDep k ≤ total)) = none := by
    rw [List.find?_eq_none]
    intro a ha
    simpa using hnone a (List.mem_reverse.mp ha)
  rw [hfind]
  rfl

/-- **C8**: the tier reconciliation job is idempotent — after an
apply-mode run over any fixed set of accounts and transactions, a second
apply-mode run reports zero updates, counts every account as already
correct, and collects no errors (stated for a well-formed tier order
containing the `"iron"` floor). -/
theorem sync_apply_twice_second_run_all_correct (order : List String)
    (minDep : String → ℚ) (users : List SyncUser) (hiron : "iron" ∈ order) :
    ((handle true order minDep (handle true order minDep users).1).2.updated = 0) ∧
    ((handle true order minDep (handle true order minDep users).1).2.already_correct
        = users.length) ∧
    ((handle true order minDep (handle true order minDep users).1).2.errors = []) := by
  have hstab := handle_users_output_stable order minDep hiron users
  have h2 := handle_users_stable order minDep _ hstab
  have hlen := handle_users_length true order minDep users
  refine ⟨?_, ?_, ?_⟩ <;> simp [handle, h2, hlen]

/-- Witness for `sync_apply_twice_second_run_all_correct`: one user with
stale tier fields, a single-tier order list. -/
theorem sync_apply_twice_second_run_all_correct_witness :
    ("iron" ∈ ["iron"]) ∧
    (((handle true ["iron"] (fun _ => 0)
        (handle true ["iron"] (fun _ => 0)
          [SyncUser.mk "a@b.c" "stale" "stale" 5 []]).1).2.updated = 0) ∧
      ((handle true ["iron"] (fun _ => 0)
        (handle true ["iron"] (fun _ => 0)
          [SyncUser.mk "a@b.c" "stale" "stale" 5 []]).1).2.already_correct
        = [SyncUser.mk "a@b.c" "stale" "stale" 5 []].length) ∧
      ((handle true ["iron"] (fun _ => 0)
        (handle true ["iron"] (fun _ => 0)
          [SyncUser.mk "a@b.c" "stale" "stale" 5 []]).1).2.errors = [])) :=
  ⟨List.Mem.head _,
    sync_apply_twice_second_run_all_correct ["iron"] (fun _ => 0)
      [SyncUser.mk "a@b.c" "stale" "stale" 5 []] (List.Mem.head _)⟩

/-- **C9**: a per-account failure during a reconciliation run is caught
and recorded keyed by the account's email rather than propagated — the
run still produces an output entry for every account, the report's total
covers every account, the error list's keys are exactly the failing
accounts' emails, and the two success counters account for exactly the
accounts whose pass succeeded. -/
theorem sync_errors_collected_batch_continues (apply : Bool) (order : List String)
    (minDep : String → ℚ) (users : List SyncUser) :
    ((handle apply order minDep users).1.length = users.length) ∧
    ((handle apply order minDep users).2.total = users.length) ∧
    ((handle apply order minDep users).2.errors.map Prod.fst
        = (users.filter (tier_lookup_fails order minDep)).map SyncUser.email) ∧
    ((handle apply order minDep users).2.already_correct
        + (handle apply order minDep users).2.updated
        = (users.filter fun u => !tier_lookup_fails order minDep u).length) := by
  have h := handle_users_report apply order minDep users
  exact ⟨handle_users_length apply order minDep users, rfl, h.1, h.2⟩

/-- Witness for `copier_counter_stays_nonneg` at a counter of zero. -/
theorem copier_counter_stays_nonneg_witness :
    (0 : ℤ) ≤ (Trader.mk 0).copiers ∧
    ((0 ≤ (unlink_copier ⟨true, true⟩ ⟨0⟩).2.copiers) ∧
      (∀ a : CancelAction, 0 ≤ (handle_cancel_request a ⟨true, true⟩ ⟨0⟩).2.copiers) ∧
      (0 < (Trader.mk 0).copiers →
        (unlink_copier ⟨true, true⟩ ⟨0⟩).2.copiers = (Trader.mk 0).copiers - 1) ∧
      (¬0 < (Trader.mk 0).copiers →
        (unlink_copier ⟨true, true⟩ ⟨0⟩).2.copiers = (Trader.mk 0).copiers ∧
          ∀ a : CancelAction,
            (handle_cancel_request a ⟨true, true⟩ ⟨0⟩).2.copiers = (Trader.mk 0).copiers)) :=
  ⟨by decide, copier_counter_stays_nonneg ⟨true, true⟩ ⟨0⟩ (by decide)⟩

end Citadel
